import Mathlib

/-!
# OpenTelemetry Collector distribution builder: the command line entry point

A shallow embedding of `cmd/builder/cmd/root.go` (`Execute`, its `RunE`
closure and `initConfig`) with explicit state passing, and of the module
resolution described in section 4.2 of the specification.

The Go code works on package-level variables (`cfg`, `cfgFile`) and calls into
cobra, viper, zap and the `builder` package.  The embedding threads the
variables through a `State`, records every observable effect in a trace of
`Event`s and takes what lies outside `root.go` (the three pipeline stages, the
outcome of flag binding, the contents of the configuration file) from an
`Env`.
-/

namespace Builder

/-! ## Data model -/

/-- A Go `error` value that is not nil, identified by its message. A possibly
nil `error` is an `Option GoError`. -/
structure GoError where
  msg : String
deriving DecidableEq, Repr

/-- One requested component: the spec's ComponentEntry (import path, version,
optional local replacement path, optional component-kind tag). -/
structure ComponentEntry where
  importPath : String
  version : String
  replacePath : Option String
  kind : Option String
deriving DecidableEq, Repr

/-- The fields of `cfg.Distribution` that `root.go` takes the address of. -/
structure Distribution where
  ExeName : String
  LongName : String
  Version : String
  IncludeCore : Bool
  OtelColVersion : String
  OutputPath : String
  Go : String
  Module : String
deriving DecidableEq, Repr

/-- The package-level `cfg` of `root.go`: `SkipCompilation`, `Distribution`,
and the modules configuration that only the config file provides. The
`Logger` field is modelled by the trace. -/
structure Config where
  SkipCompilation : Bool
  Dist : Distribution
  Modules : List ComponentEntry
deriving DecidableEq, Repr

/-- Severity of a report made through `cfg.Logger`. -/
inductive Level where
  | Info
  | Error
deriving DecidableEq, Repr

/-- A zap field: `zap.String(key, val)` or `zap.Error(err)`. -/
inductive Field where
  | String (key val : String)
  | Error (err : GoError)
deriving DecidableEq, Repr

/-- One call of `cfg.Logger.Info` or `cfg.Logger.Error`. -/
structure LogEntry where
  level : Level
  msg : String
  fields : List Field
deriving DecidableEq, Repr

/-- The three pipeline stages called by `RunE`. -/
inductive Stage where
  | Validate
  | ParseModules
  | GenerateAndCompile
deriving DecidableEq, Repr

/-- A viper instance, reduced to the settings `root.go` touches: whether
command-line flags were bound to it (`BindPFlags`), the environment options,
and the three config-file selectors. -/
structure Viper where
  boundFlags : Bool
  envKeyReplacer : Option (String × String)
  automaticEnv : Bool
  configFile : String
  configPaths : List String
  configName : String
deriving DecidableEq, Repr

/-- Observable effects of a run, in the order they happen. -/
inductive Event where
  | log (entry : LogEntry)
  | call (stage : Stage) (cfg : Config)
  | readInConfig (vp : Viper)
  | unmarshal (vp : Viper)
  | println (line : String)
  | stderr (line : String)
deriving DecidableEq, Repr

/-- How a run of `Execute` ends: it returns a possibly nil error to its
caller, or the process is terminated by `os.Exit` with a status. -/
inductive Outcome where
  | returned (err : Option GoError)
  | exited (status : Nat)
deriving DecidableEq, Repr

/-- What a viper instance holds after `ReadInConfig`: for each key the value
it resolves (config file, overridden by the environment when
`AutomaticEnv` is on), `none` when the key is absent. `undecodable` is set
when some value cannot be converted to the type of its field. -/
structure Settings where
  SkipCompilation : Option Bool
  ExeName : Option String
  LongName : Option String
  Version : Option String
  IncludeCore : Option Bool
  OtelColVersion : Option String
  OutputPath : Option String
  Go : Option String
  Module : Option String
  Modules : Option (List ComponentEntry)
  undecodable : Option GoError
deriving DecidableEq, Repr

/-- The values given on the command line of the root command, one per flag
registered in `Execute`; `none` when the flag does not occur. -/
structure FlagArgs where
  config : Option String
  skipCompilation : Option Bool
  name : Option String
  description : Option String
  version : Option String
  includeCore : Option Bool
  otelcolVersion : Option String
  outputPath : Option String
  go : Option String
  module : Option String
deriving DecidableEq, Repr

/-- What cobra makes of the command line in `cmd.Execute()`:
a parse failure (unknown flag or command, bad value), the help flag, the
`help` subcommand that cobra adds, the `version` subcommand, or the root
command with its flags. The shell-completion commands of later cobra
releases are left out. -/
inductive Dispatch where
  | flagError (err : GoError)
  | help
  | helpCmd
  | versionCmd
  | root (flags : FlagArgs)
deriving DecidableEq, Repr

/-- The result of a pipeline stage with a pointer receiver: the error it
returns and the configuration it leaves behind. -/
structure StageResult where
  err : Option GoError
  cfg : Config
deriving DecidableEq, Repr

/-- Everything `root.go` obtains from outside the file. -/
structure Env where
  /-- The value of `builder.DefaultConfig()`. -/
  DefaultConfig : Config
  /-- The method `cfg.Validate()`. -/
  Validate : Config → StageResult
  /-- The method `cfg.ParseModules()`. -/
  ParseModules : Config → StageResult
  /-- The function `builder.GenerateAndCompile(cfg)`; `cfg` is passed by value. -/
  GenerateAndCompile : Config → Option GoError
  /-- The result of `viper.BindPFlags(cmd.Flags())` on the global viper. -/
  BindPFlags : Option GoError
  /-- The call `vp.ReadInConfig()`: the error, or the path of the file used
  (`vp.ConfigFileUsed()`) and the settings the instance then holds. -/
  ReadInConfig : Viper → Except GoError (String × Settings)

/-- The package-level variables of `root.go` together with the global viper
and the trace of effects so far. -/
structure State where
  cfg : Config
  cfgFile : String
  globalViper : Viper
  trace : List Event
deriving DecidableEq, Repr

/-- The result of running a piece of code that may terminate the process. -/
structure Run where
  outcome : Outcome
  state : State
deriving DecidableEq, Repr

/-- The variable `version = "dev"`. -/
def version : String := "dev"

/-- The variable `date = "unknown"`. -/
def date : String := "unknown"

/-! ## viper and cobra primitives used by `root.go` -/

/-- The constructor `viper.New()`: no flags bound, no config file, no search path, config
name `config`. -/
def Viper.New : Viper :=
  { boundFlags := false, envKeyReplacer := none, automaticEnv := false,
    configFile := "", configPaths := [], configName := "config" }

/-- The call `vp.SetEnvKeyReplacer(strings.NewReplacer(old, new))`. -/
def Viper.SetEnvKeyReplacer (vp : Viper) (old new : String) : Viper :=
  { vp with envKeyReplacer := some (old, new) }

/-- The call `vp.AutomaticEnv()`. -/
def Viper.AutomaticEnv (vp : Viper) : Viper :=
  { vp with automaticEnv := true }

/-- The call `vp.SetConfigFile(in)`: an empty argument is ignored. -/
def Viper.SetConfigFile (vp : Viper) (file : String) : Viper :=
  if file ≠ "" then { vp with configFile := file } else vp

/-- The call `vp.AddConfigPath(in)`: an empty argument is ignored, a path already
present is not added again. The path is kept as passed (`$HOME` is resolved
against the environment by viper). -/
def Viper.AddConfigPath (vp : Viper) (path : String) : Viper :=
  if path ≠ "" ∧ path ∉ vp.configPaths then
    { vp with configPaths := vp.configPaths ++ [path] }
  else vp

/-- The call `vp.SetConfigName(in)`: an empty argument is ignored; setting a name
clears an explicit config file. -/
def Viper.SetConfigName (vp : Viper) (name : String) : Viper :=
  if name ≠ "" then { vp with configName := name, configFile := "" } else vp

/-- The call `vp.Unmarshal(&cfg)`: decodes the settings of the instance into the
existing configuration object. A key that is present overwrites its field, a
key that is absent leaves the field as it is. -/
def Viper.Unmarshal (s : Settings) (cfg : Config) : Except GoError Config :=
  match s.undecodable with
  | some e => .error e
  | none =>
    .ok
      { SkipCompilation := s.SkipCompilation.getD cfg.SkipCompilation
        Dist :=
          { ExeName := s.ExeName.getD cfg.Dist.ExeName
            LongName := s.LongName.getD cfg.Dist.LongName
            Version := s.Version.getD cfg.Dist.Version
            IncludeCore := s.IncludeCore.getD cfg.Dist.IncludeCore
            OtelColVersion := s.OtelColVersion.getD cfg.Dist.OtelColVersion
            OutputPath := s.OutputPath.getD cfg.Dist.OutputPath
            Go := s.Go.getD cfg.Dist.Go
            Module := s.Module.getD cfg.Dist.Module }
        Modules := s.Modules.getD cfg.Modules }

/-- Appends an event to the trace. -/
def State.emit (st : State) (ev : Event) : State :=
  { st with trace := st.trace ++ [ev] }

/-- The call `cfg.Logger.Info(msg, fields...)`. -/
def State.logInfo (st : State) (msg : String) (fields : List Field) : State :=
  st.emit (.log { level := .Info, msg := msg, fields := fields })

/-- The error-level report `msg` carrying `zap.Error(err)`. -/
def errorEntry (msg : String) (err : GoError) : LogEntry :=
  { level := .Error, msg := msg, fields := [.Error err] }

/-- The call `cfg.Logger.Error(msg, zap.Error(err))`. -/
def State.logError (st : State) (msg : String) (err : GoError) : State :=
  st.emit (.log (errorEntry msg err))

/-- The call `cobra.CheckErr(err)` with a non-nil `err`: prints the error to standard
error and terminates the process with status 1. -/
def CheckErr (st : State) (err : GoError) : Run :=
  { outcome := .exited 1, state := st.emit (.stderr ("Error: " ++ err.msg)) }

/-! ## `root.go` -/

/-- The flag registrations of `Execute` (lines 69 to 80): registering a flag
with `StringVar` or `BoolVar` stores the default value in the variable it is
tied to. `otelcol-version` and `output-path` take their defaults from the
current configuration. -/
def registerFlags (st : State) : State :=
  { st with
    cfgFile := ""
    cfg :=
      { st.cfg with
        SkipCompilation := false
        Dist :=
          { ExeName := "otelcol-custom"
            LongName := "Custom OpenTelemetry Collector distribution"
            Version := "1.0.0"
            IncludeCore := true
            OtelColVersion := st.cfg.Dist.OtelColVersion
            OutputPath := st.cfg.Dist.OutputPath
            Go := ""
            Module := "go.opentelemetry.io/collector/cmd/builder" } } }

/-- Flag parsing by cobra: every flag given on the command line is written
through the pointer it was registered with. -/
def parseFlags (f : FlagArgs) (st : State) : State :=
  { st with
    cfgFile := f.config.getD st.cfgFile
    cfg :=
      { st.cfg with
        SkipCompilation := f.skipCompilation.getD st.cfg.SkipCompilation
        Dist :=
          { ExeName := f.name.getD st.cfg.Dist.ExeName
            LongName := f.description.getD st.cfg.Dist.LongName
            Version := f.version.getD st.cfg.Dist.Version
            IncludeCore := f.includeCore.getD st.cfg.Dist.IncludeCore
            OtelColVersion := f.otelcolVersion.getD st.cfg.Dist.OtelColVersion
            OutputPath := f.outputPath.getD st.cfg.Dist.OutputPath
            Go := f.go.getD st.cfg.Dist.Go
            Module := f.module.getD st.cfg.Dist.Module } } }

/-- The viper instance `vp` that `initConfig` builds (lines 102 to 114): a
fresh instance, the environment options, then the config-file selection. -/
def initConfigViper (cfgFile : String) : Viper :=
  let vp := Viper.New
  let vp := vp.SetEnvKeyReplacer "." "_"
  let vp := vp.AutomaticEnv
  if cfgFile ≠ "" then
    vp.SetConfigFile cfgFile
  else
    (vp.AddConfigPath "$HOME").SetConfigName ".otelcol-builder"

/-- The function `initConfig`. The outcome is `returned none` when it returns
and `exited 1` when `cobra.CheckErr` terminates the process. -/
def initConfig (env : Env) (st : State) : Run :=
  let st := st.logInfo "OpenTelemetry Collector distribution builder"
    [.String "version" version, .String "date" date]
  let vp := initConfigViper st.cfgFile
  let st := st.emit (.readInConfig vp)
  match env.ReadInConfig vp with
  | .error err => CheckErr st err
  | .ok (path, settings) =>
    let st := st.logInfo "Using config file" [.String "path" path]
    let st := st.emit (.unmarshal vp)
    match Viper.Unmarshal settings st.cfg with
    | .error err => CheckErr (st.logError "failed to parse the config" err) err
    | .ok cfg => { outcome := .returned none, state := { st with cfg := cfg } }

/-- The `RunE` closure of the root command (lines 52 to 65): the error it
returns and the state it leaves. -/
def RunE (env : Env) (st : State) : Option GoError × State :=
  let st := st.emit (.call .Validate st.cfg)
  let v := env.Validate st.cfg
  let st := { st with cfg := v.cfg }
  match v.err with
  | some err => (some err, st.logError "invalid configuration" err)
  | none =>
    let st := st.emit (.call .ParseModules st.cfg)
    let p := env.ParseModules st.cfg
    let st := { st with cfg := p.cfg }
    match p.err with
    | some err => (some err, st.logError "invalid module configuration" err)
    | none =>
      let st := st.emit (.call .GenerateAndCompile st.cfg)
      (env.GenerateAndCompile st.cfg, st)

/-- The `Run` function of `versionCmd`: prints the parent command's name and
the version. -/
def versionCmdRun (st : State) : State :=
  st.emit (.println ("builder" ++ " version " ++ version))

/-- The call `cmd.Execute()` of cobra on the root command. A parse failure is
returned without running anything; the help flag prints the help and returns
nil; otherwise the flags are stored, the initializers registered with
`cobra.OnInitialize` run (here `initConfig`), and then the selected command,
whose error is printed to standard error and returned unchanged. The help
and usage texts are not recorded. The errors of the pipeline stages are those
of the `builder` package, none of which is the help sentinel of the flag
library. -/
def cmdExecute (env : Env) (d : Dispatch) (st : State) : Run :=
  match d with
  | .flagError err =>
    { outcome := .returned (some err), state := st.emit (.stderr ("Error: " ++ err.msg)) }
  | .help => { outcome := .returned none, state := st }
  | .helpCmd =>
    let r := initConfig env st
    match r.outcome with
    | .exited status => { outcome := .exited status, state := r.state }
    | .returned _ => { outcome := .returned none, state := r.state }
  | .versionCmd =>
    let r := initConfig env st
    match r.outcome with
    | .exited status => { outcome := .exited status, state := r.state }
    | .returned _ => { outcome := .returned none, state := versionCmdRun r.state }
  | .root flags =>
    let r := initConfig env (parseFlags flags st)
    match r.outcome with
    | .exited status => { outcome := .exited status, state := r.state }
    | .returned _ =>
      match RunE env r.state with
      | (some err, st) =>
        { outcome := .returned (some err), state := st.emit (.stderr ("Error: " ++ err.msg)) }
      | (none, st) => { outcome := .returned none, state := st }

/-- The state in which `Execute` starts: `cfg = builder.DefaultConfig()`, an
empty `cfgFile`, the global viper as created by the library, nothing
observed yet. -/
def initialState (env : Env) : State :=
  { cfg := env.DefaultConfig, cfgFile := "", globalViper := Viper.New, trace := [] }

/-- The effect of a successful `viper.BindPFlags(cmd.Flags())`: the flags are
bound to the global viper. -/
def bindPFlagsOk (st : State) : State :=
  { st with globalViper := { st.globalViper with boundFlags := true } }

/-- The function `Execute`, the main entry point of the application, run on
the command line summarised by `d`. -/
def Execute (env : Env) (d : Dispatch) : Run :=
  let st := registerFlags (initialState env)
  match env.BindPFlags with
  | some err =>
    { outcome := .returned (some err), state := st.logError "failed to bind flags" err }
  | none =>
    let r := cmdExecute env d (bindPFlagsOk st)
    match r.outcome with
    | .exited status => { outcome := .exited status, state := r.state }
    | .returned (some err) =>
      { outcome := .returned (some err), state := r.state.logError "failed to run" err }
    | .returned none => { outcome := .returned none, state := r.state }

/-! ## Reading a trace -/

/-- The stages called during a run, in order. -/
def stagesCalled (tr : List Event) : List Stage :=
  tr.filterMap fun ev =>
    match ev with
    | .call s _ => some s
    | _ => none

/-- The configurations the stages were called with, in order. -/
def stageCalls (tr : List Event) : List (Stage × Config) :=
  tr.filterMap fun ev =>
    match ev with
    | .call s c => some (s, c)
    | _ => none

/-- The error-level reports made through `cfg.Logger`, in order. -/
def errorReports (tr : List Event) : List LogEntry :=
  tr.filterMap fun ev =>
    match ev with
    | .log entry => if entry.level = .Error then some entry else none
    | _ => none

/-- The report `Execute` makes of what `cmd.Execute()` returned: "failed to
run" with the error when it is not nil, nothing otherwise (lines 91 to 94). -/
def runFailureReports (err : Option GoError) : List LogEntry :=
  match err with
  | some e => [errorEntry "failed to run" e]
  | none => []

/-- The viper instances on which `ReadInConfig` was called, in order. -/
def configReads (tr : List Event) : List Viper :=
  tr.filterMap fun ev =>
    match ev with
    | .readInConfig vp => some vp
    | _ => none

/-- The error a stage returns when called with a configuration. -/
def stageError (env : Env) (s : Stage) (c : Config) : Option GoError :=
  match s with
  | .Validate => (env.Validate c).err
  | .ParseModules => (env.ParseModules c).err
  | .GenerateAndCompile => env.GenerateAndCompile c

/-- A run in which loading the configuration through the instance `vp`
fails: `ReadInConfig` returns an error, or it succeeds and `Unmarshal` of the
settings it found returns an error. -/
def configLoadFails (env : Env) (vp : Viper) : Prop :=
  (∃ err, env.ReadInConfig vp = .error err) ∨
  (∃ path settings cfg err,
    env.ReadInConfig vp = .ok (path, settings) ∧ Viper.Unmarshal settings cfg = .error err)

/-! ## Module resolution (specification, section 4.2)

`cfg.ParseModules` is defined in the `builder` package, outside `root.go`.
-/

/-- Modelled from the spec: the DependencyManifest of section 3, the resolved
output of `cfg.ParseModules` (the spec's Module Resolver), whose source is not
part of `root.go`: the ordered entry sequence, the ordered replacement
directives (import path and local path), and the base-collector entry. -/
structure DependencyManifest where
  entries : List ComponentEntry
  replaces : List (String × String)
  base : ComponentEntry
deriving DecidableEq, Repr

/-- Modelled from the spec: the ResolutionError of section 7 raised by the
missing `cfg.ParseModules`: duplicate import paths (all offending paths in one
error), a missing replacement path, an empty or malformed version. -/
inductive ResolutionError where
  | duplicateEntries (paths : List String)
  | missingReplacement (entry : ComponentEntry)
  | invalidVersion (entry : ComponentEntry)
deriving DecidableEq, Repr

/-- Modelled from the spec: what the missing resolver takes from its
surroundings and section 4.2 leaves open: which local paths exist, how a
version string is normalised (`none` for a malformed one), and the import
path of the base collector. -/
structure ResolverEnv where
  pathExists : String → Bool
  normalizeVersion : String → Option String
  baseImportPath : String

/-- Modelled from the spec: the lexicographic order by import path of
section 3, used by the missing `cfg.ParseModules`: the characters of the two
paths are compared in order. On strings this is the order `≤`. -/
def ComponentEntry.le (a b : ComponentEntry) : Prop :=
  a.importPath.toList ≤ b.importPath.toList

instance ComponentEntry.decidableLe : DecidableRel ComponentEntry.le :=
  fun a b => inferInstanceAs (Decidable (a.importPath.toList ≤ b.importPath.toList))

instance ComponentEntry.le_isTotal : IsTotal ComponentEntry ComponentEntry.le :=
  ⟨fun a b => le_total a.importPath.toList b.importPath.toList⟩

instance ComponentEntry.le_isTrans : IsTrans ComponentEntry ComponentEntry.le :=
  ⟨fun _ _ _ h1 h2 => le_trans (α := List Char) h1 h2⟩

/-- Modelled from the spec: step 1 of section 4.2 for the missing
`cfg.ParseModules`: the import paths that appear more than once among the raw
entries, each listed once. -/
def duplicatePaths (raw : List ComponentEntry) : List String :=
  ((raw.map ComponentEntry.importPath).filter
    fun p => 1 < (raw.map ComponentEntry.importPath).count p).dedup

/-- Modelled from the spec: step 2 of section 4.2 for the missing
`cfg.ParseModules`: the entry carries a replacement path that does not exist
locally. -/
def replacementMissing (env : ResolverEnv) (e : ComponentEntry) : Bool :=
  match e.replacePath with
  | some path => !env.pathExists path
  | none => false

/-- Modelled from the spec: step 3 of section 4.2 for the missing
`cfg.ParseModules`: the version of the entry is empty or malformed. -/
def versionInvalid (env : ResolverEnv) (e : ComponentEntry) : Bool :=
  e.version == "" || (env.normalizeVersion e.version).isNone

/-- Modelled from the spec: step 3 of section 4.2 for the missing
`cfg.ParseModules`: the entry with its version string normalised. -/
def normalizeEntry (env : ResolverEnv) (e : ComponentEntry) : ComponentEntry :=
  { e with version := (env.normalizeVersion e.version).getD e.version }

/-- Modelled from the spec: step 4 of section 4.2 for the missing
`cfg.ParseModules`: the base-collector entry synthesised from the base
version. -/
def baseEntry (env : ResolverEnv) (baseVersion : String) : ComponentEntry :=
  { importPath := env.baseImportPath, version := baseVersion, replacePath := none, kind := none }

/-- Modelled from the spec: step 4 of section 4.2 for the missing
`cfg.ParseModules`: the user entry, if any, that names the import path of the
base collector; it wins over the synthesised entry. -/
def userBase (env : ResolverEnv) (raw : List ComponentEntry) : Option ComponentEntry :=
  (raw.map (normalizeEntry env)).find? fun e => e.importPath == env.baseImportPath

/-- Modelled from the spec: step 4 of section 4.2 for the missing
`cfg.ParseModules`: the normalised user entries, with the base-collector
entry appended unless a user entry names its import path. -/
def allEntries (env : ResolverEnv) (raw : List ComponentEntry) (baseVersion : String) :
    List ComponentEntry :=
  match userBase env raw with
  | some _ => raw.map (normalizeEntry env)
  | none => raw.map (normalizeEntry env) ++ [baseEntry env baseVersion]

/-- Modelled from the spec: the replacement directives of the manifest of
the missing `cfg.ParseModules`, one per entry that carries a replacement
path, in the order of the entries. -/
def replaceDirectives (entries : List ComponentEntry) : List (String × String) :=
  entries.filterMap fun e => e.replacePath.map fun p => (e.importPath, p)

/-- Modelled from the spec: the Module Resolver of section 4.2, standing for
`cfg.ParseModules`, whose source is not part of `root.go`. Steps 1 to 5 in
order: duplicate import paths are an error naming all of them; a replacement
path must exist; versions are normalised, an empty or malformed one is an
error; the base-collector entry is appended unless a user entry names
its import path (the user entry then wins); the final entry sequence is
sorted by import path ascending. -/
def Resolve (env : ResolverEnv) (raw : List ComponentEntry) (baseVersion : String) :
    Except ResolutionError DependencyManifest :=
  if duplicatePaths raw ≠ [] then
    .error (.duplicateEntries (duplicatePaths raw))
  else
    match raw.find? (replacementMissing env) with
    | some e => .error (.missingReplacement e)
    | none =>
      match raw.find? (versionInvalid env) with
      | some e => .error (.invalidVersion e)
      | none =>
        .ok
          { entries := (allEntries env raw baseVersion).insertionSort ComponentEntry.le
            replaces :=
              replaceDirectives ((allEntries env raw baseVersion).insertionSort ComponentEntry.le)
            base := (userBase env raw).getD (baseEntry env baseVersion) }

/-- Modelled from the spec: step 4 of section 4.2 for the missing
`cfg.ParseModules`: the warning recorded when a user entry overrides the
base-collector entry, as the list of overriding import paths. -/
def ResolveWarnings (env : ResolverEnv) (raw : List ComponentEntry) : List String :=
  (raw.filter fun e => e.importPath == env.baseImportPath).map ComponentEntry.importPath

/-! ## Concrete inputs used to exercise the statements -/

/-- A default configuration as `builder.DefaultConfig()` could return it. -/
def sampleConfig : Config :=
  { SkipCompilation := false
    Dist :=
      { ExeName := "", LongName := "", Version := "", IncludeCore := false,
        OtelColVersion := "0.40.0", OutputPath := "/tmp/otelcol-distribution",
        Go := "", Module := "" }
    Modules := [] }

/-- Settings of a config file that sets nothing. -/
def emptySettings : Settings :=
  { SkipCompilation := none, ExeName := none, LongName := none, Version := none,
    IncludeCore := none, OtelColVersion := none, OutputPath := none, Go := none,
    Module := none, Modules := none, undecodable := none }

/-- A command line of the root command without any flag. -/
def noFlags : FlagArgs :=
  { config := none, skipCompilation := none, name := none, description := none,
    version := none, includeCore := none, otelcolVersion := none, outputPath := none,
    go := none, module := none }

/-- An environment in which the config file is found and every stage
succeeds. -/
def okEnv : Env where
  DefaultConfig := sampleConfig
  Validate := fun c => { err := none, cfg := { c with Dist := { c.Dist with Go := "/usr/bin/go" } } }
  ParseModules := fun c => { err := none, cfg := c }
  GenerateAndCompile := fun _ => none
  BindPFlags := none
  ReadInConfig := fun _ => .ok ("/home/user/.otelcol-builder.yaml", emptySettings)

/-- As `okEnv`, but `cfg.Validate()` fails. -/
def validateFailsEnv : Env :=
  { okEnv with Validate := fun c => { err := some { msg := "go binary not found" }, cfg := c } }

/-- As `okEnv`, but `cfg.ParseModules()` fails. -/
def parseFailsEnv : Env :=
  { okEnv with ParseModules := fun c => { err := some { msg := "missing gomod" }, cfg := c } }

/-- As `okEnv`, but `builder.GenerateAndCompile` fails. -/
def compileFailsEnv : Env :=
  { okEnv with GenerateAndCompile := fun _ => some { msg := "failed to compile" } }

/-- As `okEnv`, but `viper.BindPFlags` fails. -/
def bindFailsEnv : Env :=
  { okEnv with BindPFlags := some { msg := "flag for nil" } }

/-- As `okEnv`, but no config file can be read. -/
def noConfigEnv : Env :=
  { okEnv with ReadInConfig := fun _ => .error { msg := "Config File Not Found" } }

/-- As `okEnv`, with a config file that sets the executable name. -/
def fileNameEnv : Env :=
  { okEnv with
    ReadInConfig := fun _ =>
      .ok ("/etc/builder.yaml", { emptySettings with ExeName := some "from-file" }) }

/-- The command line `--config /etc/builder.yaml --name from-flag`. -/
def nameFlag : FlagArgs :=
  { noFlags with config := some "/etc/builder.yaml", name := some "from-flag" }

/-- A resolver environment: every local path exists, the version `latest` is
malformed and every other version is kept as it is, the base collector is
`go.opentelemetry.io/collector`. -/
def sampleResolverEnv : ResolverEnv where
  pathExists := fun _ => true
  normalizeVersion := fun v => if v = "latest" then none else some v
  baseImportPath := "go.opentelemetry.io/collector"

/-- The entry `a/mod@v1`. -/
def entryA1 : ComponentEntry :=
  { importPath := "a/mod", version := "v1", replacePath := none, kind := none }

/-- The entry `b/mod@v2`. -/
def entryB2 : ComponentEntry :=
  { importPath := "b/mod", version := "v2", replacePath := none, kind := none }

/-- The entry `b/mod@v3`. -/
def entryB3 : ComponentEntry :=
  { importPath := "b/mod", version := "v3", replacePath := none, kind := none }

/-- The manifest of `a/mod@v1`, `b/mod@v2` and the base collector `v0.40.0`. -/
def sampleManifest : DependencyManifest :=
  { entries := [entryA1, entryB2, baseEntry sampleResolverEnv "v0.40.0"]
    replaces := []
    base := baseEntry sampleResolverEnv "v0.40.0" }

/-! ## Lemmas on traces -/

theorem emit_trace (st : State) (ev : Event) : (st.emit ev).trace = st.trace ++ [ev] := rfl

theorem emit_cfg (st : State) (ev : Event) : (st.emit ev).cfg = st.cfg := rfl

theorem emit_cfgFile (st : State) (ev : Event) : (st.emit ev).cfgFile = st.cfgFile := rfl

theorem logError_trace (st : State) (m : String) (e : GoError) :
    (st.logError m e).trace
      = st.trace ++ [.log (errorEntry m e)] := rfl

theorem logInfo_trace (st : State) (m : String) (fs : List Field) :
    (st.logInfo m fs).trace = st.trace ++ [.log { level := .Info, msg := m, fields := fs }] := rfl

theorem logInfo_cfg (st : State) (m : String) (fs : List Field) :
    (st.logInfo m fs).cfg = st.cfg := rfl

theorem logError_cfg (st : State) (m : String) (e : GoError) :
    (st.logError m e).cfg = st.cfg := rfl

/-- The three ways `RunE` can go, with the error returned and the trace left
behind. -/
theorem RunE_cases (env : Env) (st : State) :
    (∃ e, (env.Validate st.cfg).err = some e ∧ (RunE env st).1 = some e ∧
      (RunE env st).2.trace = st.trace ++
        [.call .Validate st.cfg,
         .log (errorEntry "invalid configuration" e)]) ∨
    (∃ e, (env.Validate st.cfg).err = none ∧
      (env.ParseModules (env.Validate st.cfg).cfg).err = some e ∧ (RunE env st).1 = some e ∧
      (RunE env st).2.trace = st.trace ++
        [.call .Validate st.cfg, .call .ParseModules (env.Validate st.cfg).cfg,
         .log (errorEntry "invalid module configuration" e)]) ∨
    ((env.Validate st.cfg).err = none ∧
      (env.ParseModules (env.Validate st.cfg).cfg).err = none ∧
      (RunE env st).1
        = env.GenerateAndCompile (env.ParseModules (env.Validate st.cfg).cfg).cfg ∧
      (RunE env st).2.trace = st.trace ++
        [.call .Validate st.cfg, .call .ParseModules (env.Validate st.cfg).cfg,
         .call .GenerateAndCompile (env.ParseModules (env.Validate st.cfg).cfg).cfg]) := by
  cases hv : (env.Validate st.cfg).err with
  | some e =>
    left
    refine ⟨e, rfl, ?_, ?_⟩ <;> simp [RunE, hv, State.emit, State.logError]
  | none =>
    right
    cases hp : (env.ParseModules (env.Validate st.cfg).cfg).err with
    | some e =>
      left
      refine ⟨e, rfl, rfl, ?_, ?_⟩ <;> simp [RunE, hv, hp, State.emit, State.logError]
    | none =>
      right
      refine ⟨rfl, rfl, ?_, ?_⟩ <;> simp [RunE, hv, hp, State.emit, State.logError]

/-! ## The root command: `RunE` -/

/-- C1: first-failure short-circuit in `RunE`. (a) If `cfg.Validate()` returns
a non-nil error `e`, `RunE` returns exactly `e` and the only stage invoked is
`Validate` (neither `ParseModules` nor `GenerateAndCompile` is). (b) If
`cfg.Validate()` returns nil and `cfg.ParseModules()` returns a non-nil error
`e`, `RunE` returns exactly `e` and the stages invoked are `Validate` and
`ParseModules` (`GenerateAndCompile` is not). -/
theorem RunE_first_failure_short_circuit (env : Env) (st : State) :
    (∀ e, (env.Validate st.cfg).err = some e →
      (RunE env st).1 = some e ∧
      stagesCalled (RunE env st).2.trace = stagesCalled st.trace ++ [Stage.Validate]) ∧
    (∀ e, (env.Validate st.cfg).err = none →
      (env.ParseModules (env.Validate st.cfg).cfg).err = some e →
      (RunE env st).1 = some e ∧
      stagesCalled (RunE env st).2.trace
        = stagesCalled st.trace ++ [Stage.Validate, Stage.ParseModules]) := by
  constructor
  · intro e hv
    simp [RunE, hv, State.emit, State.logError, stagesCalled, List.filterMap_append]
  · intro e hv hp
    simp [RunE, hv, hp, State.emit, State.logError, stagesCalled, List.filterMap_append]

/-- Witness for C1: a failing `Validate`, and a failing `ParseModules` after a
successful `Validate`. -/
theorem RunE_first_failure_short_circuit_witness :
    ((RunE validateFailsEnv (initialState validateFailsEnv)).1
        = some { msg := "go binary not found" } ∧
      stagesCalled (RunE validateFailsEnv (initialState validateFailsEnv)).2.trace
        = stagesCalled (initialState validateFailsEnv).trace ++ [Stage.Validate]) ∧
    ((RunE parseFailsEnv (initialState parseFailsEnv)).1 = some { msg := "missing gomod" } ∧
      stagesCalled (RunE parseFailsEnv (initialState parseFailsEnv)).2.trace
        = stagesCalled (initialState parseFailsEnv).trace
          ++ [Stage.Validate, Stage.ParseModules]) :=
  ⟨(RunE_first_failure_short_circuit validateFailsEnv (initialState validateFailsEnv)).1
      { msg := "go binary not found" } rfl,
   (RunE_first_failure_short_circuit parseFailsEnv (initialState parseFailsEnv)).2
      { msg := "missing gomod" } rfl rfl⟩

/-- C2: stage order and success path of `RunE`. When `cfg.Validate()` and
`cfg.ParseModules()` both return nil, the stages are invoked exactly once each
in the order `Validate`, `ParseModules`, `GenerateAndCompile`, each on the
configuration left by the stage before it, and `RunE` returns exactly what
`builder.GenerateAndCompile(cfg)` returns, `cfg` being the configuration as
left by `ParseModules`. -/
theorem RunE_stage_order (env : Env) (st : State)
    (hv : (env.Validate st.cfg).err = none)
    (hp : (env.ParseModules (env.Validate st.cfg).cfg).err = none) :
    stageCalls (RunE env st).2.trace
      = stageCalls st.trace ++
        [(Stage.Validate, st.cfg),
         (Stage.ParseModules, (env.Validate st.cfg).cfg),
         (Stage.GenerateAndCompile, (env.ParseModules (env.Validate st.cfg).cfg).cfg)] ∧
    (RunE env st).1
      = env.GenerateAndCompile (env.ParseModules (env.Validate st.cfg).cfg).cfg := by
  simp [RunE, hv, hp, State.emit, stageCalls, List.filterMap_append]

/-- Witness for C2: all stages succeed, and `GenerateAndCompile` fails. -/
theorem RunE_stage_order_witness :
    (stageCalls (RunE okEnv (initialState okEnv)).2.trace
      = stageCalls (initialState okEnv).trace ++
        [(Stage.Validate, (initialState okEnv).cfg),
         (Stage.ParseModules, (okEnv.Validate (initialState okEnv).cfg).cfg),
         (Stage.GenerateAndCompile,
           (okEnv.ParseModules (okEnv.Validate (initialState okEnv).cfg).cfg).cfg)] ∧
      (RunE okEnv (initialState okEnv)).1
        = okEnv.GenerateAndCompile
            (okEnv.ParseModules (okEnv.Validate (initialState okEnv).cfg).cfg).cfg) ∧
    (RunE compileFailsEnv (initialState compileFailsEnv)).1
      = some { msg := "failed to compile" } :=
  ⟨RunE_stage_order okEnv (initialState okEnv) rfl rfl,
   (RunE_stage_order compileFailsEnv (initialState compileFailsEnv) rfl rfl).2⟩

/-! ## Lemmas on `initConfig`, `cmd.Execute()` and `Execute` -/

theorem Unmarshal_error_iff (s : Settings) (cfg : Config) (e : GoError) :
    Viper.Unmarshal s cfg = .error e ↔ s.undecodable = some e := by
  unfold Viper.Unmarshal
  cases h : s.undecodable <;> simp

theorem initConfig_spec (env : Env) (st : State) :
    stageCalls (initConfig env st).state.trace = stageCalls st.trace ∧
    configReads (initConfig env st).state.trace
      = configReads st.trace ++ [initConfigViper st.cfgFile] ∧
    (((initConfig env st).outcome = .exited 1 ∧
        configLoadFails env (initConfigViper st.cfgFile)) ∨
      ((initConfig env st).outcome = .returned none ∧
        ¬ configLoadFails env (initConfigViper st.cfgFile) ∧
        errorReports (initConfig env st).state.trace = errorReports st.trace)) := by
  unfold initConfig
  simp only [emit_cfg, logInfo_cfg, State.logInfo, emit_cfgFile]
  cases hr : env.ReadInConfig (initConfigViper st.cfgFile) with
  | error err =>
    simp [CheckErr, State.emit, stageCalls, configReads, List.filterMap_append, configLoadFails, hr]
  | ok ps =>
    obtain ⟨path, s⟩ := ps
    cases hu : s.undecodable with
    | some err =>
      have : Viper.Unmarshal s st.cfg = .error err := (Unmarshal_error_iff _ _ _).2 hu
      simp [CheckErr, State.emit, State.logError, stageCalls, configReads, List.filterMap_append,
        configLoadFails, hr, this]
      exact ⟨path, s, ⟨rfl, rfl⟩, st.cfg, err, this⟩
    | none =>
      simp [Viper.Unmarshal, hu, CheckErr, State.emit, State.logError, stageCalls, configReads, errorReports,
        List.filterMap_append, configLoadFails, hr]

theorem stageCalls_append (a b : List Event) : stageCalls (a ++ b) = stageCalls a ++ stageCalls b := by
  simp [stageCalls, List.filterMap_append]

theorem errorReports_append (a b : List Event) :
    errorReports (a ++ b) = errorReports a ++ errorReports b := by
  simp [errorReports, List.filterMap_append]

theorem cmdExecute_summary (env : Env) (d : Dispatch) (st : State) :
    ((cmdExecute env d st).outcome = .exited 1 ∧
      stageCalls (cmdExecute env d st).state.trace = stageCalls st.trace) ∨
    (∃ oe, (cmdExecute env d st).outcome = .returned oe ∧
      stageCalls (cmdExecute env d st).state.trace = stageCalls st.trace ∧
      errorReports (cmdExecute env d st).state.trace = errorReports st.trace) ∨
    (∃ c e, (env.Validate c).err = some e ∧
      (cmdExecute env d st).outcome = .returned (some e) ∧
      stageCalls (cmdExecute env d st).state.trace
        = stageCalls st.trace ++ [(Stage.Validate, c)] ∧
      errorReports (cmdExecute env d st).state.trace
        = errorReports st.trace ++
          [errorEntry "invalid configuration" e]) ∨
    (∃ c e, (env.Validate c).err = none ∧ (env.ParseModules (env.Validate c).cfg).err = some e ∧
      (cmdExecute env d st).outcome = .returned (some e) ∧
      stageCalls (cmdExecute env d st).state.trace
        = stageCalls st.trace ++
          [(Stage.Validate, c), (Stage.ParseModules, (env.Validate c).cfg)] ∧
      errorReports (cmdExecute env d st).state.trace
        = errorReports st.trace ++
          [errorEntry "invalid module configuration" e]) ∨
    (∃ c, (env.Validate c).err = none ∧ (env.ParseModules (env.Validate c).cfg).err = none ∧
      (cmdExecute env d st).outcome
        = .returned (env.GenerateAndCompile (env.ParseModules (env.Validate c).cfg).cfg) ∧
      stageCalls (cmdExecute env d st).state.trace
        = stageCalls st.trace ++
          [(Stage.Validate, c), (Stage.ParseModules, (env.Validate c).cfg),
           (Stage.GenerateAndCompile, (env.ParseModules (env.Validate c).cfg).cfg)] ∧
      errorReports (cmdExecute env d st).state.trace = errorReports st.trace) := by
  cases d with
  | flagError err =>
    right; left
    exact ⟨some err, rfl, by simp [cmdExecute, State.emit, stageCalls], 
      by simp [cmdExecute, State.emit, errorReports]⟩
  | help => right; left; exact ⟨none, rfl, rfl, rfl⟩
  | helpCmd =>
    obtain ⟨hc, -, hi⟩ := initConfig_spec env st
    rcases hi with ⟨ho, -⟩ | ⟨ho, -, he⟩
    · left; simp only [cmdExecute, ho]; exact ⟨trivial, hc⟩
    · right; left
      refine ⟨none, ?_, ?_, ?_⟩
      · simp only [cmdExecute, ho]
      · simp only [cmdExecute, ho, hc]
      · simp only [cmdExecute, ho, he]
  | versionCmd =>
    obtain ⟨hc, -, hi⟩ := initConfig_spec env st
    rcases hi with ⟨ho, -⟩ | ⟨ho, -, he⟩
    · left; simp only [cmdExecute, ho]; exact ⟨trivial, hc⟩
    · right; left
      refine ⟨none, ?_, ?_, ?_⟩
      · simp only [cmdExecute, ho]
      · simp only [cmdExecute, ho, versionCmdRun, emit_trace, stageCalls_append, hc]
        simp [stageCalls]
      · simp only [cmdExecute, ho, versionCmdRun, emit_trace, errorReports_append, he]
        simp [errorReports]
  | root flags =>
    obtain ⟨hc, -, hi⟩ := initConfig_spec env (parseFlags flags st)
    have hc' : stageCalls (initConfig env (parseFlags flags st)).state.trace = stageCalls st.trace := hc
    rcases hi with ⟨ho, -⟩ | ⟨ho, -, he⟩
    · left; simp only [cmdExecute, ho]; exact ⟨trivial, hc⟩
    · have he' : errorReports (initConfig env (parseFlags flags st)).state.trace
          = errorReports st.trace := he
      right; right
      rcases RunE_cases env (initConfig env (parseFlags flags st)).state with
        ⟨e, hv, h1, h2⟩ | ⟨e, hv, hp, h1, h2⟩ | ⟨hv, hp, h1, h2⟩
      · left
        refine ⟨_, e, hv, ?_⟩
        simp only [cmdExecute, ho]
        rcases hR : RunE env (initConfig env (parseFlags flags st)).state with ⟨oe, st2⟩
        rw [hR] at h1 h2
        simp only at h1 h2
        subst h1
        simp only [emit_trace, h2, stageCalls_append, errorReports_append, hc', he']
        simp [stageCalls, errorReports, errorEntry]
      · right; left
        refine ⟨_, e, hv, hp, ?_⟩
        simp only [cmdExecute, ho]
        rcases hR : RunE env (initConfig env (parseFlags flags st)).state with ⟨oe, st2⟩
        rw [hR] at h1 h2
        simp only at h1 h2
        subst h1
        simp only [emit_trace, h2, stageCalls_append, errorReports_append, hc', he']
        simp [stageCalls, errorReports, errorEntry]
      · right; right
        refine ⟨_, hv, hp, ?_⟩
        simp only [cmdExecute, ho]
        rcases hR : RunE env (initConfig env (parseFlags flags st)).state with ⟨oe, st2⟩
        rw [hR] at h1 h2
        simp only at h1 h2
        rw [← h1]
        cases oe with
        | some err =>
          simp only [emit_trace, h2, stageCalls_append, errorReports_append, hc', he']
          simp [stageCalls, errorReports, errorEntry]
        | none =>
          simp only [emit_trace, h2, stageCalls_append, errorReports_append, hc', he']
          simp [stageCalls, errorReports, errorEntry]


theorem stagesCalled_eq_map (tr : List Event) :
    stagesCalled tr = (stageCalls tr).map Prod.fst := by
  induction tr with
  | nil => rfl
  | cons ev tr ih =>
    cases ev <;> simp_all [stagesCalled, stageCalls, List.filterMap_cons]

theorem Execute_bind_fail (env : Env) (d : Dispatch) (e : GoError)
    (h : env.BindPFlags = some e) :
    Execute env d
      = { outcome := .returned (some e),
          state := (registerFlags (initialState env)).logError "failed to bind flags" e } := by
  simp [Execute, h]

theorem Execute_bind_ok (env : Env) (d : Dispatch) (h : env.BindPFlags = none) :
    Execute env d
      = match (cmdExecute env d (bindPFlagsOk (registerFlags (initialState env)))).outcome with
        | .exited status =>
          { outcome := .exited status,
            state := (cmdExecute env d (bindPFlagsOk (registerFlags (initialState env)))).state }
        | .returned (some err) =>
          { outcome := .returned (some err),
            state := (cmdExecute env d
              (bindPFlagsOk (registerFlags (initialState env)))).state.logError
                "failed to run" err }
        | .returned none =>
          { outcome := .returned none,
            state := (cmdExecute env d (bindPFlagsOk (registerFlags (initialState env)))).state } := by
  simp [Execute, h]

/-- Every run of `Execute` falls in one of six classes. -/
theorem Execute_summary (env : Env) (d : Dispatch) :
    (∃ e, env.BindPFlags = some e ∧ (Execute env d).outcome = .returned (some e) ∧
      (Execute env d).state.trace = [.log (errorEntry "failed to bind flags" e)]) ∨
    (env.BindPFlags = none ∧ (Execute env d).outcome = .exited 1 ∧
      stageCalls (Execute env d).state.trace = []) ∨
    (∃ oe, env.BindPFlags = none ∧ (Execute env d).outcome = .returned oe ∧
      stageCalls (Execute env d).state.trace = [] ∧
      errorReports (Execute env d).state.trace = runFailureReports oe) ∨
    (∃ c e, (env.Validate c).err = some e ∧
      (Execute env d).outcome = .returned (some e) ∧
      stageCalls (Execute env d).state.trace = [(Stage.Validate, c)] ∧
      errorReports (Execute env d).state.trace
        = [errorEntry "invalid configuration" e, errorEntry "failed to run" e]) ∨
    (∃ c e, (env.Validate c).err = none ∧ (env.ParseModules (env.Validate c).cfg).err = some e ∧
      (Execute env d).outcome = .returned (some e) ∧
      stageCalls (Execute env d).state.trace
        = [(Stage.Validate, c), (Stage.ParseModules, (env.Validate c).cfg)] ∧
      errorReports (Execute env d).state.trace
        = [errorEntry "invalid module configuration" e, errorEntry "failed to run" e]) ∨
    (∃ c, (env.Validate c).err = none ∧ (env.ParseModules (env.Validate c).cfg).err = none ∧
      (Execute env d).outcome
        = .returned (env.GenerateAndCompile (env.ParseModules (env.Validate c).cfg).cfg) ∧
      stageCalls (Execute env d).state.trace
        = [(Stage.Validate, c), (Stage.ParseModules, (env.Validate c).cfg),
           (Stage.GenerateAndCompile, (env.ParseModules (env.Validate c).cfg).cfg)] ∧
      errorReports (Execute env d).state.trace
        = runFailureReports
            (env.GenerateAndCompile (env.ParseModules (env.Validate c).cfg).cfg)) := by
  cases hb : env.BindPFlags with
  | some e =>
    left
    refine ⟨e, rfl, ?_, ?_⟩ <;> simp [Execute_bind_fail env d e hb, State.logError, State.emit,
      registerFlags, initialState]
  | none =>
    right
    have h0 : stageCalls (bindPFlagsOk (registerFlags (initialState env))).trace = [] := rfl
    have h1 : errorReports (bindPFlagsOk (registerFlags (initialState env))).trace = [] := rfl
    have key := cmdExecute_summary env d (bindPFlagsOk (registerFlags (initialState env)))
    rw [h0, h1] at key
    rw [Execute_bind_ok env d hb]
    generalize cmdExecute env d (bindPFlagsOk (registerFlags (initialState env))) = r at key
    obtain ⟨o, rst⟩ := r
    simp only [List.nil_append] at key
    rcases key with ⟨ho, hc⟩ | ⟨oe, ho, hc, he⟩ | ⟨c, e, hv, ho, hc, he⟩ |
      ⟨c, e, hv, hp, ho, hc, he⟩ | ⟨c, hv, hp, ho, hc, he⟩
    · left
      subst ho
      exact ⟨rfl, rfl, hc⟩
    · right; left
      subst ho
      refine ⟨oe, rfl, ?_⟩
      cases oe with
      | none => exact ⟨rfl, hc, he⟩
      | some e =>
        refine ⟨rfl, ?_, ?_⟩
        · simp only [logError_trace, stageCalls_append, hc]
          simp [stageCalls]
        · simp only [logError_trace, errorReports_append, he]
          simp [errorReports, errorEntry, runFailureReports]
    · right; right; left
      subst ho
      refine ⟨c, e, hv, rfl, ?_, ?_⟩
      · simp only [logError_trace, stageCalls_append, hc]
        simp [stageCalls]
      · simp only [logError_trace, errorReports_append, he]
        simp [errorReports, errorEntry]
    · right; right; right; left
      subst ho
      refine ⟨c, e, hv, hp, rfl, ?_, ?_⟩
      · simp only [logError_trace, stageCalls_append, hc]
        simp [stageCalls]
      · simp only [logError_trace, errorReports_append, he]
        simp [errorReports, errorEntry]
    · right; right; right; right
      subst ho
      refine ⟨c, hv, hp, ?_⟩
      cases hg : env.GenerateAndCompile (env.ParseModules (env.Validate c).cfg).cfg with
      | none => exact ⟨rfl, hc, by simpa [runFailureReports] using he⟩
      | some e =>
        refine ⟨rfl, ?_, ?_⟩
        · simp only [logError_trace, stageCalls_append, hc]
          simp [stageCalls]
        · simp only [logError_trace, errorReports_append, he]
          simp [errorReports, errorEntry, runFailureReports]


theorem configReads_append (a b : List Event) :
    configReads (a ++ b) = configReads a ++ configReads b := by
  simp [configReads, List.filterMap_append]

/-- A failing configuration load met by `cmd.Execute()` ends the process
before any stage is called. -/
theorem cmdExecute_config_load (env : Env) (d : Dispatch) (st : State) (vp : Viper)
    (hst : configReads st.trace = [])
    (hvp : vp ∈ configReads (cmdExecute env d st).state.trace)
    (hf : configLoadFails env vp) :
    (cmdExecute env d st).outcome = .exited 1 ∧
    stageCalls (cmdExecute env d st).state.trace = stageCalls st.trace := by
  cases d with
  | flagError err =>
    simp [cmdExecute, emit_trace, configReads_append, hst] at hvp
    simp [configReads] at hvp
  | help => simp [cmdExecute, hst] at hvp
  | helpCmd =>
    obtain ⟨hc, hr, hi⟩ := initConfig_spec env st
    rcases hi with ⟨ho, -⟩ | ⟨ho, hn, -⟩
    · simp only [cmdExecute, ho]; exact ⟨trivial, hc⟩
    · exfalso
      simp only [cmdExecute, ho, hr, hst] at hvp
      simp at hvp
      exact hn (hvp ▸ hf)
  | versionCmd =>
    obtain ⟨hc, hr, hi⟩ := initConfig_spec env st
    rcases hi with ⟨ho, -⟩ | ⟨ho, hn, -⟩
    · simp only [cmdExecute, ho]; exact ⟨trivial, hc⟩
    · exfalso
      simp only [cmdExecute, ho, versionCmdRun, emit_trace, configReads_append, hr, hst] at hvp
      simp [configReads] at hvp
      exact hn (hvp ▸ hf)
  | root flags =>
    obtain ⟨hc, hr, hi⟩ := initConfig_spec env (parseFlags flags st)
    have hst' : configReads (parseFlags flags st).trace = [] := hst
    rcases hi with ⟨ho, -⟩ | ⟨ho, hn, -⟩
    · simp only [cmdExecute, ho]; exact ⟨trivial, hc⟩
    · exfalso
      obtain ⟨-, -, -, hrun⟩ : True ∧ True ∧ True ∧
          configReads (RunE env (initConfig env (parseFlags flags st)).state).2.trace
            = configReads (initConfig env (parseFlags flags st)).state.trace := by
        refine ⟨trivial, trivial, trivial, ?_⟩
        rcases RunE_cases env (initConfig env (parseFlags flags st)).state with
          ⟨e, -, -, h2⟩ | ⟨e, -, -, -, h2⟩ | ⟨-, -, -, h2⟩ <;>
        · rw [h2, configReads_append]
          simp [configReads]
      simp only [cmdExecute, ho] at hvp
      rcases hR : RunE env (initConfig env (parseFlags flags st)).state with ⟨oe, st2⟩
      rw [hR] at hvp hrun
      have hmem : vp ∈ configReads st2.trace := by
        cases oe with
        | none => simpa using hvp
        | some e =>
          simp only [emit_trace, configReads_append] at hvp
          simpa [configReads] using hvp
      rw [hrun, hr, hst'] at hmem
      simp at hmem
      exact hn (hmem ▸ hf)

/-! ## The entry point: `Execute` -/

/-- C3: exit mapping of `Execute`. (1) `Execute` returns nil if and only if
binding the flags succeeds and the root command's execution `cmd.Execute()`
returns nil. (2) Whenever a pipeline stage called during the run (`Validate`,
`ParseModules` or `GenerateAndCompile`) fails with error `e`, `Execute` returns
that same non-nil `e`. (3) Whenever all three stages run and succeed (a
skip-compilation run included: `GenerateAndCompile` returns nil), `Execute`
returns nil. (4) If `viper.BindPFlags` fails with `e`, `Execute` returns `e`
and the command is never executed: the only effect is the report of `e`. -/
theorem Execute_exit_mapping (env : Env) (d : Dispatch) :
    ((Execute env d).outcome = .returned none ↔
      env.BindPFlags = none ∧
      (cmdExecute env d (bindPFlagsOk (registerFlags (initialState env)))).outcome
        = .returned none) ∧
    (∀ s c e, (s, c) ∈ stageCalls (Execute env d).state.trace → stageError env s c = some e →
      (Execute env d).outcome = .returned (some e)) ∧
    (stagesCalled (Execute env d).state.trace
        = [Stage.Validate, Stage.ParseModules, Stage.GenerateAndCompile] →
      (∀ s c, (s, c) ∈ stageCalls (Execute env d).state.trace → stageError env s c = none) →
      (Execute env d).outcome = .returned none) ∧
    (∀ e, env.BindPFlags = some e →
      (Execute env d).outcome = .returned (some e) ∧
      (Execute env d).state.trace = [.log (errorEntry "failed to bind flags" e)]) := by
  refine ⟨?_, ?_, ?_, ?_⟩
  · cases hb : env.BindPFlags with
    | some e => simp [Execute_bind_fail env d e hb]
    | none =>
      rw [Execute_bind_ok env d hb]
      generalize cmdExecute env d (bindPFlagsOk (registerFlags (initialState env))) = r
      obtain ⟨o, rst⟩ := r
      cases o with
      | exited n => simp
      | returned oe => cases oe <;> simp
  · intro s c e hmem herr
    rcases Execute_summary env d with ⟨e', -, -, ht⟩ | ⟨-, -, hc⟩ | ⟨oe, -, -, hc, -⟩ |
      ⟨c', e', hv, ho, hc, -⟩ | ⟨c', e', hv, hp, ho, hc, -⟩ | ⟨c', hv, hp, ho, hc, -⟩
    · rw [ht] at hmem; simp [stageCalls] at hmem
    · rw [hc] at hmem; simp at hmem
    · rw [hc] at hmem; simp at hmem
    · rw [hc] at hmem
      simp only [List.mem_singleton, Prod.mk.injEq] at hmem
      obtain ⟨rfl, rfl⟩ := hmem
      simp only [stageError, hv, Option.some.injEq] at herr
      rw [ho, herr]
    · rw [hc] at hmem
      simp only [List.mem_cons, Prod.mk.injEq, List.mem_singleton, List.not_mem_nil,
        or_false] at hmem
      rcases hmem with ⟨rfl, rfl⟩ | ⟨rfl, rfl⟩
      · simp [stageError, hv] at herr
      · simp only [stageError, hp, Option.some.injEq] at herr
        rw [ho, herr]
    · rw [hc] at hmem
      simp only [List.mem_cons, Prod.mk.injEq, List.mem_singleton, List.not_mem_nil,
        or_false] at hmem
      rcases hmem with ⟨rfl, rfl⟩ | ⟨rfl, rfl⟩ | ⟨rfl, rfl⟩
      · simp [stageError, hv] at herr
      · simp [stageError, hp] at herr
      · simp only [stageError] at herr
        rw [ho, herr]
  · intro hs hall
    rw [stagesCalled_eq_map] at hs
    rcases Execute_summary env d with ⟨e', -, -, ht⟩ | ⟨-, -, hc⟩ | ⟨oe, -, -, hc, -⟩ |
      ⟨c', e', hv, ho, hc, -⟩ | ⟨c', e', hv, hp, ho, hc, -⟩ | ⟨c', hv, hp, ho, hc, -⟩
    · rw [ht] at hs; simp [stageCalls] at hs
    · rw [hc] at hs; simp at hs
    · rw [hc] at hs; simp at hs
    · rw [hc] at hs; simp at hs
    · rw [hc] at hs; simp at hs
    · have := hall Stage.GenerateAndCompile (env.ParseModules (env.Validate c').cfg).cfg
        (by rw [hc]; simp)
      simp only [stageError] at this
      rw [ho, this]
  · intro e hb
    simp [Execute_bind_fail env d e hb, State.logError, State.emit, registerFlags, initialState]

/-- Witness for C3: a run whose `Validate` stage fails, a run in which all
stages succeed, and a run in which binding the flags fails. -/
theorem Execute_exit_mapping_witness :
    (Execute validateFailsEnv (.root noFlags)).outcome
      = .returned (some { msg := "go binary not found" }) ∧
    (Execute okEnv (.root noFlags)).outcome = .returned none ∧
    ((Execute bindFailsEnv (.root noFlags)).outcome
        = .returned (some { msg := "flag for nil" }) ∧
      (Execute bindFailsEnv (.root noFlags)).state.trace
        = [.log (errorEntry "failed to bind flags" { msg := "flag for nil" })]) :=
  ⟨(Execute_exit_mapping validateFailsEnv (.root noFlags)).2.1 Stage.Validate
      (registerFlags (initialState validateFailsEnv)).cfg { msg := "go binary not found" }
      (by decide) rfl,
   (Execute_exit_mapping okEnv (.root noFlags)).2.2.1 (by decide)
      (fun s c _ => by cases s <;> rfl),
   (Execute_exit_mapping bindFailsEnv (.root noFlags)).2.2.2 { msg := "flag for nil" } rfl⟩


/-- C4 fails as stated: in the run of the root command in which `Validate`
fails with `go binary not found`, that stage is the first to fail and two
error-level reports are made through `cfg.Logger`, not one: "invalid
configuration" by `RunE` and "failed to run" by `Execute`. -/
theorem Execute_sole_report_counterexample :
    (Stage.Validate, (registerFlags (initialState validateFailsEnv)).cfg)
      ∈ stageCalls (Execute validateFailsEnv (.root noFlags)).state.trace ∧
    stageError validateFailsEnv Stage.Validate (registerFlags (initialState validateFailsEnv)).cfg
      = some { msg := "go binary not found" } ∧
    errorReports (Execute validateFailsEnv (.root noFlags)).state.trace
      = [errorEntry "invalid configuration" { msg := "go binary not found" },
         errorEntry "failed to run" { msg := "go binary not found" }] ∧
    (errorReports (Execute validateFailsEnv (.root noFlags)).state.trace).length ≠ 1 := by
  refine ⟨by decide, rfl, rfl, by decide⟩

/-- C4, amended: in every run of `Execute` in which a pipeline stage fails
with error `e`, the error-level reports made through `cfg.Logger` by
`root.go` all carry `e` and nothing else: when `Validate` fails they are
"invalid configuration" then "failed to run", when `ParseModules` fails they
are "invalid module configuration" then "failed to run", and when
`GenerateAndCompile` fails there is the single report "failed to run". -/
theorem Execute_failure_reports (env : Env) (d : Dispatch) (s : Stage) (c : Config)
    (e : GoError) (hmem : (s, c) ∈ stageCalls (Execute env d).state.trace)
    (herr : stageError env s c = some e) :
    errorReports (Execute env d).state.trace =
      match s with
      | .Validate => [errorEntry "invalid configuration" e, errorEntry "failed to run" e]
      | .ParseModules =>
        [errorEntry "invalid module configuration" e, errorEntry "failed to run" e]
      | .GenerateAndCompile => [errorEntry "failed to run" e] := by
  rcases Execute_summary env d with ⟨e', -, -, ht⟩ | ⟨-, -, hc⟩ | ⟨oe, -, -, hc, -⟩ |
    ⟨c', e', hv, -, hc, he⟩ | ⟨c', e', hv, hp, -, hc, he⟩ | ⟨c', hv, hp, -, hc, he⟩
  · rw [ht] at hmem; simp [stageCalls] at hmem
  · rw [hc] at hmem; simp at hmem
  · rw [hc] at hmem; simp at hmem
  · rw [hc] at hmem
    simp only [List.mem_singleton, Prod.mk.injEq] at hmem
    obtain ⟨rfl, rfl⟩ := hmem
    simp only [stageError, hv, Option.some.injEq] at herr
    rw [he, herr]
  · rw [hc] at hmem
    simp only [List.mem_cons, Prod.mk.injEq, List.mem_singleton, List.not_mem_nil,
      or_false] at hmem
    rcases hmem with ⟨rfl, rfl⟩ | ⟨rfl, rfl⟩
    · simp [stageError, hv] at herr
    · simp only [stageError, hp, Option.some.injEq] at herr
      rw [he, herr]
  · rw [hc] at hmem
    simp only [List.mem_cons, Prod.mk.injEq, List.mem_singleton, List.not_mem_nil,
      or_false] at hmem
    rcases hmem with ⟨rfl, rfl⟩ | ⟨rfl, rfl⟩ | ⟨rfl, rfl⟩
    · simp [stageError, hv] at herr
    · simp [stageError, hp] at herr
    · simp only [stageError] at herr
      rw [he, herr]
      rfl

/-- Witness for the amended C4: a run in which `GenerateAndCompile` fails
makes the single report "failed to run". -/
theorem Execute_failure_reports_witness :
    errorReports (Execute compileFailsEnv (.root noFlags)).state.trace
      = [errorEntry "failed to run" { msg := "failed to compile" }] :=
  Execute_failure_reports compileFailsEnv (.root noFlags) Stage.GenerateAndCompile
    (okEnv.Validate (registerFlags (initialState compileFailsEnv)).cfg).cfg
    { msg := "failed to compile" } (by decide) rfl

/-- C5 fails on the code: with the command line
`--config /etc/builder.yaml --name from-flag` and a config file that sets the
executable name to `from-file`, every stage sees `from-file` in
`cfg.Distribution.ExeName`: `vp.Unmarshal(&cfg)` runs after the flags were
parsed and overwrites the field. The viper instance the configuration is
read from is a fresh one with no flags bound, while the flags are bound to
the global viper. -/
theorem Execute_flag_overridden_by_config_file :
    (stageCalls (Execute fileNameEnv (.root nameFlag)).state.trace).map
        (fun p => (p.1, p.2.Dist.ExeName))
      = [(Stage.Validate, "from-file"), (Stage.ParseModules, "from-file"),
         (Stage.GenerateAndCompile, "from-file")] ∧
    (configReads (Execute fileNameEnv (.root nameFlag)).state.trace).map
        (fun vp => (vp.configFile, vp.boundFlags))
      = [("/etc/builder.yaml", false)] ∧
    (Execute fileNameEnv (.root nameFlag)).state.globalViper.boundFlags = true := by
  refine ⟨by decide, by decide, rfl⟩

/-- C6: config file selection in `initConfig`. `ReadInConfig` is called once,
on the instance `vp`. If `cfgFile` (the value of `--config`) is the empty
string, `vp` looks the configuration up under the name `.otelcol-builder` in
the search path `$HOME` and has no explicit config file; if `cfgFile` is not
empty, exactly that file is the config file of `vp`, and no search path or
config name was added (the search path is empty and the name is the one
`viper.New()` starts with). -/
theorem initConfig_config_file_selection (env : Env) (st : State) :
    configReads (initConfig env st).state.trace
      = configReads st.trace ++ [initConfigViper st.cfgFile] ∧
    (st.cfgFile = "" →
      (initConfigViper st.cfgFile).configName = ".otelcol-builder" ∧
      (initConfigViper st.cfgFile).configPaths = ["$HOME"] ∧
      (initConfigViper st.cfgFile).configFile = "") ∧
    (st.cfgFile ≠ "" →
      (initConfigViper st.cfgFile).configFile = st.cfgFile ∧
      (initConfigViper st.cfgFile).configPaths = [] ∧
      (initConfigViper st.cfgFile).configName = Viper.New.configName) := by
  refine ⟨(initConfig_spec env st).2.1, ?_, ?_⟩
  · intro h
    rw [h]
    decide
  · intro h
    simp [initConfigViper, h, Viper.SetConfigFile, Viper.AutomaticEnv, Viper.SetEnvKeyReplacer,
      Viper.New]

/-- Witness for C6: no `--config` flag, and `--config /etc/builder.yaml`. -/
theorem initConfig_config_file_selection_witness :
    ((initConfigViper (initialState okEnv).cfgFile).configName = ".otelcol-builder" ∧
      (initConfigViper (initialState okEnv).cfgFile).configPaths = ["$HOME"] ∧
      (initConfigViper (initialState okEnv).cfgFile).configFile = "") ∧
    ((initConfigViper (parseFlags nameFlag (initialState okEnv)).cfgFile).configFile
        = (parseFlags nameFlag (initialState okEnv)).cfgFile ∧
      (initConfigViper (parseFlags nameFlag (initialState okEnv)).cfgFile).configPaths = [] ∧
      (initConfigViper (parseFlags nameFlag (initialState okEnv)).cfgFile).configName
        = Viper.New.configName) :=
  ⟨(initConfig_config_file_selection okEnv (initialState okEnv)).2.1 rfl,
   (initConfig_config_file_selection okEnv (parseFlags nameFlag (initialState okEnv))).2.2
      (by decide)⟩

/-- C10: a config file is required. Whenever reading the config file
(`vp.ReadInConfig`) or converting it into the configuration object
(`vp.Unmarshal`) fails, `initConfig` ends the process through
`cobra.CheckErr` with the failure status 1; and in every run of `Execute` in
which the load attempted through some instance `vp` fails, the process ends
with status 1 and none of `cfg.Validate()`, `cfg.ParseModules()` and
`builder.GenerateAndCompile` is invoked, so no files are generated. -/
theorem Execute_config_file_required (env : Env) :
    (∀ st, configLoadFails env (initConfigViper st.cfgFile) →
      (initConfig env st).outcome = .exited 1) ∧
    (∀ d vp, vp ∈ configReads (Execute env d).state.trace → configLoadFails env vp →
      (Execute env d).outcome = .exited 1 ∧ stagesCalled (Execute env d).state.trace = []) := by
  constructor
  · intro st hf
    rcases (initConfig_spec env st).2.2 with ⟨ho, -⟩ | ⟨-, hn, -⟩
    · exact ho
    · exact absurd hf hn
  · intro d vp hvp hf
    cases hb : env.BindPFlags with
    | some e =>
      rw [Execute_bind_fail env d e hb] at hvp
      simp [logError_trace, configReads_append, registerFlags, initialState, configReads] at hvp
    | none =>
      rw [Execute_bind_ok env d hb] at hvp ⊢
      have key := cmdExecute_config_load env d (bindPFlagsOk (registerFlags (initialState env))) vp rfl
      have h0 : stageCalls (bindPFlagsOk (registerFlags (initialState env))).trace = [] := rfl
      rw [h0] at key
      generalize cmdExecute env d (bindPFlagsOk (registerFlags (initialState env))) = r at key hvp
      obtain ⟨o, rst⟩ := r
      have hvp' : vp ∈ configReads rst.trace := by
        cases o with
        | exited n => simpa using hvp
        | returned oe =>
          cases oe with
          | none => simpa using hvp
          | some e =>
            simp only [logError_trace, configReads_append] at hvp
            simpa [configReads] using hvp
      obtain ⟨ho, hc⟩ := key hvp' hf
      simp only at ho hc
      subst ho
      simp only [stagesCalled_eq_map, hc, List.map_nil, and_self]

/-- Witness for C10: no config file can be read. -/
theorem Execute_config_file_required_witness :
    (initConfig noConfigEnv (initialState noConfigEnv)).outcome = .exited 1 ∧
    ((Execute noConfigEnv (.root noFlags)).outcome = .exited 1 ∧
      stagesCalled (Execute noConfigEnv (.root noFlags)).state.trace = []) :=
  ⟨(Execute_config_file_required noConfigEnv).1 (initialState noConfigEnv)
      (Or.inl ⟨{ msg := "Config File Not Found" }, rfl⟩),
   (Execute_config_file_required noConfigEnv).2 (.root noFlags) (initConfigViper "")
      (by decide) (Or.inl ⟨{ msg := "Config File Not Found" }, rfl⟩)⟩

/-! ## Module resolution -/

theorem mem_duplicatePaths (raw : List ComponentEntry) (p : String) :
    p ∈ duplicatePaths raw ↔ 2 ≤ (raw.map ComponentEntry.importPath).count p := by
  unfold duplicatePaths
  rw [List.mem_dedup, List.mem_filter]
  constructor
  · rintro ⟨-, h⟩
    simpa using h
  · intro h
    refine ⟨?_, by simpa using h⟩
    exact List.count_pos_iff.1 (by omega)

theorem duplicatePaths_eq_nil (raw : List ComponentEntry) :
    duplicatePaths raw = [] ↔ (raw.map ComponentEntry.importPath).Nodup := by
  rw [List.eq_nil_iff_forall_not_mem, List.nodup_iff_count_le_one]
  constructor
  · intro h p
    have := h p
    rw [mem_duplicatePaths] at this
    omega
  · intro h p
    rw [mem_duplicatePaths]
    have := h p
    omega

theorem Resolve_eq_ok_iff (env : ResolverEnv) (raw : List ComponentEntry) (bv : String)
    (m : DependencyManifest) :
    Resolve env raw bv = .ok m ↔
      (raw.map ComponentEntry.importPath).Nodup ∧
      (∀ e ∈ raw, replacementMissing env e = false) ∧
      (∀ e ∈ raw, versionInvalid env e = false) ∧
      m = { entries := (allEntries env raw bv).insertionSort ComponentEntry.le
            replaces :=
              replaceDirectives ((allEntries env raw bv).insertionSort ComponentEntry.le)
            base := (userBase env raw).getD (baseEntry env bv) } := by
  unfold Resolve
  rw [← duplicatePaths_eq_nil]
  by_cases hd : duplicatePaths raw = []
  · simp only [hd, ne_eq, not_true_eq_false, ↓reduceIte, true_and]
    cases hr : raw.find? (replacementMissing env) with
    | some e =>
      have := List.find?_some hr
      have hm := List.mem_of_find?_eq_some hr
      simp only [reduceCtorEq, false_iff, not_and]
      intro h
      simp [h e hm] at this
    | none =>
      rw [List.find?_eq_none] at hr
      cases hv : raw.find? (versionInvalid env) with
      | some e =>
        have := List.find?_some hv
        have hm := List.mem_of_find?_eq_some hv
        simp only [reduceCtorEq, false_iff, not_and]
        intro _ h
        simp [h e hm] at this
      | none =>
        rw [List.find?_eq_none] at hv
        simp only [Except.ok.injEq]
        constructor
        · intro h
          exact ⟨fun e he => by simpa using hr e he, fun e he => by simpa using hv e he, h.symm⟩
        · rintro ⟨-, -, h⟩
          exact h.symm
  · simp [hd]

theorem normalizeEntry_importPath (env : ResolverEnv) (e : ComponentEntry) :
    (normalizeEntry env e).importPath = e.importPath := rfl

theorem map_normalize_importPath (env : ResolverEnv) (raw : List ComponentEntry) :
    (raw.map (normalizeEntry env)).map ComponentEntry.importPath
      = raw.map ComponentEntry.importPath := by
  simp [List.map_map, Function.comp_def, normalizeEntry_importPath]

/-- On lists that are permutations of each other and have distinct keys,
looking up a key finds the same element. -/
theorem find?_key_perm {α β : Type} [DecidableEq β] (f : α → β) (k : β) {l l' : List α}
    (hp : l.Perm l') (hn : (l.map f).Nodup) :
    l.find? (fun a => f a == k) = l'.find? (fun a => f a == k) := by
  have hinj : ∀ a ∈ l, ∀ b ∈ l, f a = f b → a = b := fun a ha b hb h =>
    List.inj_on_of_nodup_map hn ha hb h
  cases h1 : l.find? (fun a => f a == k) with
  | none =>
    rw [List.find?_eq_none] at h1
    symm
    rw [List.find?_eq_none]
    intro x hx
    exact h1 x (hp.mem_iff.2 hx)
  | some a =>
    have ha := List.mem_of_find?_eq_some h1
    have hak := List.find?_some h1
    cases h2 : l'.find? (fun a => f a == k) with
    | none =>
      rw [List.find?_eq_none] at h2
      exact absurd hak (h2 a (hp.mem_iff.1 ha))
    | some b =>
      have hb := hp.mem_iff.2 (List.mem_of_find?_eq_some h2)
      have hbk := List.find?_some h2
      simp only [beq_iff_eq] at hak hbk
      rw [hinj a ha b hb (hak.trans hbk.symm)]

theorem userBase_perm (env : ResolverEnv) {raw raw' : List ComponentEntry}
    (hp : raw.Perm raw') (hn : (raw.map ComponentEntry.importPath).Nodup) :
    userBase env raw = userBase env raw' := by
  unfold userBase
  apply find?_key_perm ComponentEntry.importPath env.baseImportPath (hp.map _)
  rw [map_normalize_importPath]
  exact hn

theorem allEntries_perm (env : ResolverEnv) (bv : String) {raw raw' : List ComponentEntry}
    (hp : raw.Perm raw') (hn : (raw.map ComponentEntry.importPath).Nodup) :
    (allEntries env raw bv).Perm (allEntries env raw' bv) := by
  unfold allEntries
  rw [← userBase_perm env hp hn]
  cases userBase env raw with
  | some _ => exact hp.map _
  | none => exact (hp.map _).append_right _

theorem allEntries_nodup (env : ResolverEnv) (bv : String) {raw : List ComponentEntry}
    (hn : (raw.map ComponentEntry.importPath).Nodup) :
    ((allEntries env raw bv).map ComponentEntry.importPath).Nodup := by
  unfold allEntries
  cases h : userBase env raw with
  | some _ => simpa [map_normalize_importPath] using hn
  | none =>
    simp only [List.map_append, map_normalize_importPath, List.map_cons, List.map_nil]
    rw [List.nodup_append]
    refine ⟨hn, List.nodup_singleton _, ?_⟩
    unfold userBase at h
    rw [List.find?_eq_none] at h
    intro p hp1 hp2
    simp only [List.mem_singleton] at hp2
    subst hp2
    rw [← map_normalize_importPath env, List.mem_map] at hp1
    obtain ⟨e, he, hpe⟩ := hp1
    have := h e he
    simp only [beq_iff_eq] at this
    exact this hpe


theorem sorted_le_insertionSort (l : List ComponentEntry) :
    List.Sorted ComponentEntry.le (l.insertionSort ComponentEntry.le) :=
  List.sorted_insertionSort ComponentEntry.le l

/-- Sorting by import path gives the same list for two permutations of
entries with distinct import paths. -/
theorem insertionSort_perm_eq {l l' : List ComponentEntry} (hp : l.Perm l')
    (hn : (l.map ComponentEntry.importPath).Nodup) :
    l.insertionSort ComponentEntry.le = l'.insertionSort ComponentEntry.le := by
  have strict : ∀ k : List ComponentEntry, (k.map ComponentEntry.importPath).Nodup →
      List.Sorted (fun a b => a.importPath.toList < b.importPath.toList)
        (k.insertionSort ComponentEntry.le) := by
    intro k hk
    have h1 := sorted_le_insertionSort k
    have h2 : ((k.insertionSort ComponentEntry.le).map ComponentEntry.importPath).Nodup :=
      ((List.perm_insertionSort ComponentEntry.le k).map _).nodup_iff.2 hk
    rw [List.Nodup, List.pairwise_map] at h2
    refine (List.Pairwise.and h1 h2).imp ?_
    rintro a b ⟨hle, hne⟩
    refine lt_of_le_of_ne hle ?_
    intro heq
    exact hne (String.toList_inj.1 heq)
  have hn' : (l'.map ComponentEntry.importPath).Nodup := (hp.map _).nodup_iff.1 hn
  have hperm : (l.insertionSort ComponentEntry.le).Perm (l'.insertionSort ComponentEntry.le) :=
    (List.perm_insertionSort _ l).trans (hp.trans (List.perm_insertionSort _ l').symm)
  haveI : IsAntisymm ComponentEntry
      (fun a b => a.importPath.toList < b.importPath.toList) :=
    ⟨fun a b h1 h2 => absurd h1 (lt_asymm h2)⟩
  exact List.eq_of_perm_of_sorted hperm (strict l hn) (strict l' hn')

theorem Resolve_perm (env : ResolverEnv) (bv : String) {raw raw' : List ComponentEntry}
    (hp : raw.Perm raw') (m : DependencyManifest) (h : Resolve env raw bv = .ok m) :
    Resolve env raw' bv = .ok m := by
  rw [Resolve_eq_ok_iff] at h ⊢
  obtain ⟨hn, hr, hv, hm⟩ := h
  refine ⟨(hp.map _).nodup_iff.1 hn, fun e he => hr e (hp.mem_iff.2 he),
    fun e he => hv e (hp.mem_iff.2 he), ?_⟩
  rw [hm, ← userBase_perm env hp hn,
    ← insertionSort_perm_eq (allEntries_perm env bv hp hn) (allEntries_nodup env bv hn)]

/-- C8: ordering invariant of module resolution. For every list of component
entries on which resolution (`cfg.ParseModules`, the spec's Resolve) succeeds,
the entry sequence of the resulting manifest is sorted ascending by import
path, and resolving any permutation of the input list succeeds with the same
manifest. -/
theorem Resolve_ordering_invariant (env : ResolverEnv) (raw : List ComponentEntry)
    (baseVersion : String) (m : DependencyManifest)
    (h : Resolve env raw baseVersion = .ok m) :
    List.Sorted (fun a b => a.importPath ≤ b.importPath) m.entries ∧
    (∀ raw', raw.Perm raw' → Resolve env raw' baseVersion = .ok m) := by
  refine ⟨?_, fun raw' hp => Resolve_perm env baseVersion hp m h⟩
  rw [Resolve_eq_ok_iff] at h
  obtain ⟨-, -, -, hm⟩ := h
  rw [hm]
  refine (sorted_le_insertionSort _).imp ?_
  intro a b hab
  exact String.le_iff_toList_le.2 hab

/-- Witness for C8: the input `[b/mod@v2, a/mod@v1]` resolves to a manifest
that lists `a/mod@v1` before `b/mod@v2` (followed by the base collector), and
so does the input `[a/mod@v1, b/mod@v2]`. -/
theorem Resolve_ordering_invariant_witness :
    List.Sorted (fun a b => a.importPath ≤ b.importPath) sampleManifest.entries ∧
    Resolve sampleResolverEnv [entryA1, entryB2] "v0.40.0" = .ok sampleManifest :=
  ⟨(Resolve_ordering_invariant sampleResolverEnv [entryB2, entryA1] "v0.40.0" sampleManifest
      rfl).1,
   (Resolve_ordering_invariant sampleResolverEnv [entryB2, entryA1] "v0.40.0" sampleManifest
      rfl).2 [entryA1, entryB2] (List.Perm.swap _ _ _)⟩

/-- C9: duplicate rejection in module resolution. For every list of component
entries in which some import path occurs in two or more entries (whatever
their versions), resolution (`cfg.ParseModules`, the spec's Resolve) fails
with the duplicate-entry resolution error, which names exactly the import
paths that occur more than once; it never succeeds by keeping one of the
entries. -/
theorem Resolve_rejects_duplicates (env : ResolverEnv) (raw : List ComponentEntry)
    (baseVersion : String)
    (h : ∃ p, 2 ≤ (raw.map ComponentEntry.importPath).count p) :
    ∃ paths, Resolve env raw baseVersion = .error (.duplicateEntries paths) ∧
      ∀ p, p ∈ paths ↔ 2 ≤ (raw.map ComponentEntry.importPath).count p := by
  refine ⟨duplicatePaths raw, ?_, mem_duplicatePaths raw⟩
  obtain ⟨p, hp⟩ := h
  have hne : duplicatePaths raw ≠ [] := by
    intro h0
    have := (mem_duplicatePaths raw p).2 hp
    rw [h0] at this
    simp at this
  simp [Resolve, hne]

/-- Witness for C9: `b/mod` requested as `v2` and as `v3`. -/
theorem Resolve_rejects_duplicates_witness :
    ∃ paths, Resolve sampleResolverEnv [entryB2, entryA1, entryB3] "v0.40.0"
        = .error (.duplicateEntries paths) ∧
      ∀ p, p ∈ paths ↔
        2 ≤ ([entryB2, entryA1, entryB3].map ComponentEntry.importPath).count p :=
  Resolve_rejects_duplicates sampleResolverEnv [entryB2, entryA1, entryB3] "v0.40.0"
    ⟨"b/mod", by decide⟩

end Builder
